import Mathlib

/-!
Shallow embedding of the Polymarket copy-trading agent, from
`src/agents/polymarket/copy_trader.py` and `src/agents/polymarket/analytics.py`.

Conventions: Python `float` values are modelled as exact rationals; Python
dicts are modelled as association lists where the dict shape itself is at
stake and as structures otherwise; a network call that may raise is modelled
by an explicit parameter carrying its outcome (`none` / empty meaning the
call failed and the surrounding `except` block ran).
-/

namespace CopyTrader

/-- A raw trade event as consumed by `analyze_trade`: the fields the code
reads out of the provider's trade dict (copy_trader.py lines 292-296). -/
structure TradeEvent where
  id : String
  market : String
  asset_id : String
  side : String
  size : ℚ
  price : ℚ
deriving DecidableEq

/-- The configuration keys of `config/copy_trader_config.json` that the
mirroring logic reads (defaults written by `_load_config`, lines 85-111). -/
structure Config where
  min_amount_to_copy : ℚ
  max_amount_to_copy : ℚ
  copy_percentage : ℚ
  min_copy_delay : ℚ
  max_copy_delay : ℚ
  blacklisted_markets : List String
  whitelist_only : Bool
  whitelisted_markets : List String
  copy_buys : Bool
  copy_sells : Bool
  max_positions_per_market : Nat
  max_daily_trades : Nat
  max_daily_amount : ℚ
  trading_active : Bool
deriving DecidableEq

/-- The `default_config` literal that `_load_config` writes when no config
file exists (lines 85-111). -/
def defaultConfig : Config where
  min_amount_to_copy := 50
  max_amount_to_copy := 500
  copy_percentage := 1/10
  min_copy_delay := 30
  max_copy_delay := 300
  blacklisted_markets := []
  whitelist_only := false
  whitelisted_markets := []
  copy_buys := true
  copy_sells := true
  max_positions_per_market := 3
  max_daily_trades := 10
  max_daily_amount := 1000
  trading_active := false

/-- Line 299: `trade_value = size * price if side == "SELL" else size`. -/
def trade_value (t : TradeEvent) : ℚ :=
  if t.side = "SELL" then t.size * t.price else t.size

/-- Lines 302-309: the `should_copy` boolean conjunction (minimum amount,
blacklist, whitelist, side enablement; no other checks are made). -/
def should_copy (cfg : Config) (t : TradeEvent) : Bool :=
  decide (cfg.min_amount_to_copy ≤ trade_value t) &&
  !(cfg.blacklisted_markets.contains t.market) &&
  (!cfg.whitelist_only || cfg.whitelisted_markets.contains t.market) &&
  ((t.side == "BUY" && cfg.copy_buys) || (t.side == "SELL" && cfg.copy_sells))

/-- Lines 312-317: `copy_amount = min(trade_value * copy_percentage,
max_amount_to_copy)`. -/
def copy_amount (cfg : Config) (t : TradeEvent) : ℚ :=
  min (trade_value t * cfg.copy_percentage) cfg.max_amount_to_copy

/-- The analysis record returned by `analyze_trade` (dict literal at lines
319-327), one field per dict key. -/
structure TradeAnalysis where
  original_trade : TradeEvent
  should_copy : Bool
  copy_amount : ℚ
  market_id : String
  asset_id : String
  side : String
  price : ℚ
deriving DecidableEq

/-- The function `analyze_trade` (lines 281-327). -/
def analyze_trade (cfg : Config) (t : TradeEvent) : TradeAnalysis where
  original_trade := t
  should_copy := should_copy cfg t
  copy_amount := copy_amount cfg t
  market_id := t.market
  asset_id := t.asset_id
  side := t.side
  price := t.price

/-- A Python value as it appears in the dict that `analyze_trade` returns. -/
inductive PyVal where
  | str (s : String)
  | num (q : ℚ)
  | bool (b : Bool)
  | trade (t : TradeEvent)
deriving DecidableEq

/-- The exact key-value pairs of the dict literal returned by `analyze_trade`
(lines 319-327); note that no "reason" key is among them. -/
def analyze_trade_dict (cfg : Config) (t : TradeEvent) : List (String × PyVal) :=
  [("original_trade", PyVal.trade t),
   ("should_copy", PyVal.bool (should_copy cfg t)),
   ("copy_amount", PyVal.num (copy_amount cfg t)),
   ("market_id", PyVal.str t.market),
   ("asset_id", PyVal.str t.asset_id),
   ("side", PyVal.str t.side),
   ("price", PyVal.num t.price)]

/-- The BUY trade of the spec's sizing scenario: size 2000 at price 1. -/
def scenarioTrade : TradeEvent where
  id := "trade-scenario"
  market := "market-1"
  asset_id := "asset-1"
  side := "BUY"
  size := 2000
  price := 1

/-- A BUY trade whose value (10) is below the default minimum of 50. -/
def belowMinTrade : TradeEvent where
  id := "trade-small"
  market := "market-1"
  asset_id := "asset-1"
  side := "BUY"
  size := 10
  price := 1/2

/-- C4: the notional is `size * price` for SELL trades and the raw `size` for
BUY trades, and in the default configuration (minimum 50, percentage 0.1,
maximum 500) the BUY trade of size 2000 at price 1 has trade value 2000, copy
amount `min 200 500 = 200`, and is approved for copying. -/
theorem c4_trade_value_asymmetry_and_scenario :
    (∀ t : TradeEvent, t.side = "SELL" → trade_value t = t.size * t.price) ∧
    (∀ t : TradeEvent, t.side = "BUY" → trade_value t = t.size) ∧
    trade_value scenarioTrade = 2000 ∧
    (analyze_trade defaultConfig scenarioTrade).copy_amount = min 200 500 ∧
    (analyze_trade defaultConfig scenarioTrade).copy_amount = 200 ∧
    (analyze_trade defaultConfig scenarioTrade).should_copy = true := by
  have htv : trade_value scenarioTrade = 2000 := by decide
  have hca : (analyze_trade defaultConfig scenarioTrade).copy_amount = 200 := by
    show copy_amount defaultConfig scenarioTrade = 200
    rw [copy_amount, htv]
    norm_num [defaultConfig, min_def]
  refine ⟨fun t h => by simp [trade_value, h], fun t h => ?_, htv, ?_, hca, by decide⟩
  · rw [trade_value, if_neg]
    rw [h]
    decide
  · rw [hca]
    norm_num [min_def]

/-- Witness for C4: the SELL branch at a concrete SELL trade and the BUY
scenario evaluated concretely. -/
theorem c4_witness :
    trade_value ⟨"trade-sell", "market-1", "asset-1", "SELL", 3, 2⟩ = 3 * 2 ∧
    trade_value scenarioTrade = 2000 :=
  ⟨c4_trade_value_asymmetry_and_scenario.1 ⟨"trade-sell", "market-1", "asset-1", "SELL", 3, 2⟩ rfl,
   c4_trade_value_asymmetry_and_scenario.2.2.1⟩

/-- C5: under nonnegative size, price, copy percentage and maximum, the
decision's copy amount is `min (trade_value * copy_percentage)
max_amount_to_copy`, and whenever the trade is approved the copy amount lies
between 0 and `max_amount_to_copy`. -/
theorem c5_copy_amount_formula_and_bounds (cfg : Config) (t : TradeEvent)
    (hs : 0 ≤ t.size) (hp : 0 ≤ t.price) (hc : 0 ≤ cfg.copy_percentage)
    (hm : 0 ≤ cfg.max_amount_to_copy) :
    (analyze_trade cfg t).copy_amount
      = min (trade_value t * cfg.copy_percentage) cfg.max_amount_to_copy ∧
    ((analyze_trade cfg t).should_copy = true →
      0 ≤ (analyze_trade cfg t).copy_amount ∧
      (analyze_trade cfg t).copy_amount ≤ cfg.max_amount_to_copy) := by
  have htv : 0 ≤ trade_value t := by
    rw [trade_value]
    by_cases h : t.side = "SELL"
    · rw [if_pos h]; exact mul_nonneg hs hp
    · rw [if_neg h]; exact hs
  refine ⟨rfl, fun _ => ⟨?_, ?_⟩⟩
  · exact le_min (mul_nonneg htv hc) hm
  · exact min_le_right _ _

/-- Witness for C5: the formula and bounds hold at the default configuration
and the size-2000 BUY trade. -/
theorem c5_witness :
    (analyze_trade defaultConfig scenarioTrade).copy_amount
      = min (trade_value scenarioTrade * defaultConfig.copy_percentage)
          defaultConfig.max_amount_to_copy ∧
    (0 ≤ (analyze_trade defaultConfig scenarioTrade).copy_amount ∧
      (analyze_trade defaultConfig scenarioTrade).copy_amount
        ≤ defaultConfig.max_amount_to_copy) := by
  have h := c5_copy_amount_formula_and_bounds defaultConfig scenarioTrade
    (by decide) (by decide) (by norm_num [defaultConfig]) (by decide)
  exact ⟨h.1, h.2 (by decide)⟩

/-- C6 counterexample: at a below-minimum BUY trade under the default
configuration, the analysis dict marks the trade as not copied but carries no
"reason" key at all, so no `BelowMinimum` reason is returned. -/
theorem c6_counterexample :
    trade_value belowMinTrade < defaultConfig.min_amount_to_copy ∧
    (analyze_trade_dict defaultConfig belowMinTrade).lookup "reason" = none ∧
    (analyze_trade_dict defaultConfig belowMinTrade).lookup "should_copy"
      = some (PyVal.bool false) := by
  decide

/-- C6 amended: every trade whose trade value is strictly below
`min_amount_to_copy` is marked not-to-copy, regardless of its other fields
and of the rest of the configuration; the code attaches no rejection
reason. -/
theorem c6_below_minimum_rejected (cfg : Config) (t : TradeEvent)
    (h : trade_value t < cfg.min_amount_to_copy) :
    (analyze_trade cfg t).should_copy = false := by
  have hd : decide (cfg.min_amount_to_copy ≤ trade_value t) = false :=
    decide_eq_false (not_le.mpr h)
  show should_copy cfg t = false
  rw [should_copy, hd]
  simp

/-- Witness for C6: the below-minimum BUY trade is not copied under the
default configuration. -/
theorem c6_witness :
    (analyze_trade defaultConfig belowMinTrade).should_copy = false :=
  c6_below_minimum_rejected defaultConfig belowMinTrade (by decide)

/-- A record appended to `trade_history` by `_record_copy_trade` (dict
literal at lines 383-392), one field per dict key. -/
structure CopyRecord where
  timestamp : String
  original_trade : TradeEvent
  copied_trade_id : String
  copy_amount : ℚ
  market_id : String
  asset_id : String
  side : String
  price : ℚ
deriving DecidableEq

/-- Appends a record under a key of the insertion-ordered `trade_history`
dict, creating the key at the end when absent (effect of lines 395-398). -/
def append_record : List (String × List CopyRecord) → String → CopyRecord →
    List (String × List CopyRecord)
  | [], k, r => [(k, [r])]
  | (k', rs) :: rest, k, r =>
    if k' = k then (k', rs ++ [r]) :: rest else (k', rs) :: append_record rest k r

/-- The function `_record_copy_trade` (lines 372-401): builds the record from
the analysis and appends it under the market key, unconditionally. -/
def record_copy_trade (hist : List (String × List CopyRecord)) (a : TradeAnalysis)
    (trade_id : String) (timestamp : String) : List (String × List CopyRecord) :=
  append_record hist a.market_id
    { timestamp := timestamp
      original_trade := a.original_trade
      copied_trade_id := trade_id
      copy_amount := a.copy_amount
      market_id := a.market_id
      asset_id := a.asset_id
      side := a.side
      price := a.price }

/-- Number of ledger entries whose recorded source trade carries the given
id. -/
def source_id_count (hist : List (String × List CopyRecord)) (tid : String) : Nat :=
  (hist.map fun p => (p.2.filter fun r => r.original_trade.id == tid).length).sum

/-- Total number of ledger entries across all markets. -/
def total_entries (hist : List (String × List CopyRecord)) : Nat :=
  (hist.map fun p => p.2.length).sum

theorem total_entries_append_record (hist : List (String × List CopyRecord))
    (k : String) (r : CopyRecord) :
    total_entries (append_record hist k r) = total_entries hist + 1 := by
  induction hist with
  | nil => simp [append_record, total_entries]
  | cons p rest ih =>
    obtain ⟨k', rs⟩ := p
    by_cases h : k' = k
    · simp only [append_record, if_pos h, total_entries, List.map_cons, List.sum_cons,
        List.length_append, List.length_cons, List.length_nil]
      omega
    · simp only [append_record, if_neg h, total_entries, List.map_cons, List.sum_cons]
      simp only [total_entries] at ih
      omega

theorem source_id_count_append_record (hist : List (String × List CopyRecord))
    (k : String) (r : CopyRecord) (sid : String) :
    source_id_count (append_record hist k r) sid
      = source_id_count hist sid + (if r.original_trade.id == sid then 1 else 0) := by
  induction hist with
  | nil =>
    by_cases h : r.original_trade.id == sid <;>
      simp [append_record, source_id_count, List.filter, h]
  | cons p rest ih =>
    obtain ⟨k', rs⟩ := p
    by_cases h : k' = k
    · simp only [append_record, if_pos h, source_id_count, List.map_cons, List.sum_cons,
        List.filter_append]
      by_cases hr : r.original_trade.id == sid <;> simp [List.filter, hr] <;> omega
    · simp only [append_record, if_neg h, source_id_count, List.map_cons, List.sum_cons]
      simp only [source_id_count] at ih
      omega

/-- An analysis record as handed to `_record_copy_trade` when replaying the
size-2000 scenario trade. -/
def replayAnalysis : TradeAnalysis where
  original_trade := scenarioTrade
  should_copy := true
  copy_amount := 200
  market_id := "market-1"
  asset_id := "asset-1"
  side := "BUY"
  price := 1

/-- C8 counterexample: starting from the empty ledger and recording a mirror
of the same source trade twice, its source trade id appears in two ledger
entries, so the at-most-once replay guard does not hold. -/
theorem c8_counterexample :
    source_id_count
      (record_copy_trade (record_copy_trade [] replayAnalysis "ord-1" "ts-1")
        replayAnalysis "ord-2" "ts-2") "trade-scenario" = 2 := by
  decide

/-- C8 amended: recording is an unconditional append with no replay guard:
every call to `_record_copy_trade` grows the ledger by exactly one entry, and
the number of entries carrying a given source trade id grows by one exactly
when the recorded analysis carries that id — in particular re-recording an
already-present source trade id adds a second entry for it. -/
theorem c8_record_appends_unconditionally (hist : List (String × List CopyRecord))
    (a : TradeAnalysis) (trade_id timestamp sid : String) :
    total_entries (record_copy_trade hist a trade_id timestamp)
      = total_entries hist + 1 ∧
    source_id_count (record_copy_trade hist a trade_id timestamp) sid
      = source_id_count hist sid + (if a.original_trade.id == sid then 1 else 0) := by
  exact ⟨total_entries_append_record hist a.market_id _,
    source_id_count_append_record hist a.market_id _ sid⟩

/-- An order submission passed to `polymarket.execute_order` (lines
355-360). -/
structure OrderReq where
  price : ℚ
  size : ℚ
  side : String
  token_id : String
deriving DecidableEq

/-- The observable outcome of `execute_copy_trade`: the returned trade id,
the orders submitted to the gateway, and the updated trade history. -/
structure ExecResult where
  trade_id : Option String
  submitted : List OrderReq
  history : List (String × List CopyRecord)
deriving DecidableEq

/-- The function `execute_copy_trade` (lines 329-370). The order gateway is a
parameter mapping the submitted order to `some` id on success and to `none`
when `execute_order` raises (in which case the `except` block returns `None`
and nothing is recorded). A BUY copy at price 0 raises `ZeroDivisionError`
while computing the size (line 352), caught by the same `except` block before
any order is submitted. -/
def execute_copy_trade (cfg : Config) (gateway : OrderReq → Option String)
    (timestamp : String) (hist : List (String × List CopyRecord))
    (a : TradeAnalysis) : ExecResult :=
  if !cfg.trading_active then
    { trade_id := none, submitted := [], history := hist }
  else
    let sideC := if a.side == "BUY" then "BUY" else "SELL"
    if sideC == "SELL" then
      let req : OrderReq :=
        { price := a.price, size := a.copy_amount, side := sideC, token_id := a.asset_id }
      match gateway req with
      | none => { trade_id := none, submitted := [req], history := hist }
      | some tid =>
        { trade_id := some tid, submitted := [req],
          history := record_copy_trade hist a tid timestamp }
    else if a.price == 0 then
      { trade_id := none, submitted := [], history := hist }
    else
      let req : OrderReq :=
        { price := a.price, size := a.copy_amount / a.price, side := sideC,
          token_id := a.asset_id }
      match gateway req with
      | none => { trade_id := none, submitted := [req], history := hist }
      | some tid =>
        { trade_id := some tid, submitted := [req],
          history := record_copy_trade hist a tid timestamp }

/-- C9: the default configuration has `trading_active = false`, and whenever
`trading_active` is false the execute step submits no order to the gateway,
returns no trade id, and leaves the trade history unchanged, for every
analysis, gateway behaviour and history. -/
theorem c9_kill_switch :
    defaultConfig.trading_active = false ∧
    ∀ (cfg : Config) (gw : OrderReq → Option String) (ts : String)
      (hist : List (String × List CopyRecord)) (a : TradeAnalysis),
      cfg.trading_active = false →
      execute_copy_trade cfg gw ts hist a
        = { trade_id := none, submitted := [], history := hist } := by
  refine ⟨rfl, fun cfg gw ts hist a h => ?_⟩
  rw [execute_copy_trade, h]
  simp

/-- Witness for C9: with trading inactive, executing the scenario analysis
against an always-succeeding gateway submits nothing and keeps the empty
history. -/
theorem c9_witness :
    execute_copy_trade defaultConfig (fun _ => some "ord-1") "ts-1" [] replayAnalysis
      = { trade_id := none, submitted := [], history := [] } :=
  c9_kill_switch.2 defaultConfig (fun _ => some "ord-1") "ts-1" [] replayAnalysis rfl

/-- One pass of the trade-processing loop inside `monitor_traders` (lines
442-465): each fetched trade is analyzed and every analysis with
`should_copy` true is executed immediately; no budget, daily-cap or
per-market state is consulted between trades. Returns the final history and
the execution outcomes of the copied trades, in order. -/
def process_trades (cfg : Config) (gateway : OrderReq → Option String) (ts : String) :
    List (String × List CopyRecord) → List TradeEvent →
      List (String × List CopyRecord) × List (Option String)
  | hist, [] => (hist, [])
  | hist, t :: rest =>
    let a := analyze_trade cfg t
    if a.should_copy then
      let r := execute_copy_trade cfg gateway ts hist a
      let next := process_trades cfg gateway ts r.history rest
      (next.1, r.trade_id :: next.2)
    else
      process_trades cfg gateway ts hist rest

/-- The default configuration with a daily-trade cap of 2 and trading
switched on. -/
def capConfig : Config :=
  { defaultConfig with max_daily_trades := 2, trading_active := true }

/-- An approvable BUY trade (value 2000, nothing blacklisted) with the given
id. -/
def capTrade (n : String) : TradeEvent where
  id := n
  market := "market-1"
  asset_id := "asset-1"
  side := "BUY"
  size := 2000
  price := 1

/-- A gateway on which every submission succeeds. -/
def allOk : OrderReq → Option String := fun _ => some "ord-ok"

/-- C1: evaluation of the code at the failing input. With
`max_daily_trades = 2` and three trades that each pass every gate
`analyze_trade` actually checks, the monitoring loop copies and executes all
three (three execution outcomes, three ledger entries): no trade is rejected
with a daily-cap reason. Moreover the decision of `analyze_trade` is
independent of `max_daily_trades` altogether. -/
theorem c1_daily_cap_not_enforced :
    capConfig.max_daily_trades = 2 ∧
    (analyze_trade capConfig (capTrade "T1")).should_copy = true ∧
    (analyze_trade capConfig (capTrade "T2")).should_copy = true ∧
    (analyze_trade capConfig (capTrade "T3")).should_copy = true ∧
    (process_trades capConfig allOk "ts-1" []
        [capTrade "T1", capTrade "T2", capTrade "T3"]).2.length = 3 ∧
    total_entries (process_trades capConfig allOk "ts-1" []
        [capTrade "T1", capTrade "T2", capTrade "T3"]).1 = 3 ∧
    ∀ (c : Config) (t : TradeEvent) (n : Nat),
      analyze_trade { c with max_daily_trades := n } t = analyze_trade c t := by
  refine ⟨rfl, by decide, by decide, by decide, by decide, by decide, fun c t n => rfl⟩

/-- Python dict assignment `d[k] = v` on an insertion-ordered association
list. -/
def dict_set (d : List (String × ℚ)) (k : String) (v : ℚ) : List (String × ℚ) :=
  match d with
  | [] => [(k, v)]
  | (k', v') :: rest => if k' = k then (k', v) :: rest else (k', v') :: dict_set rest k v

/-- The function `get_recent_trades` (lines 237-279), acting on the
`last_check_time` dict (timestamps modelled as rationals). `now` is the clock
reading stored into `last_check_time[trader]` at line 272. The outcome of the
two provider queries is `fetch`: `none` when either call raises, in which
case the `except` block returns the empty list with the dict untouched (the
update at line 272 is never reached); `some (mk, tk)` carries the maker and
taker trade lists, which are concatenated. -/
def get_recent_trades (lct : List (String × ℚ)) (trader : String) (now : ℚ)
    (fetch : Option (List TradeEvent × List TradeEvent)) :
    List (String × ℚ) × List TradeEvent :=
  match fetch with
  | none => (lct, [])
  | some (mk, tk) => (dict_set lct trader now, mk ++ tk)

theorem lookup_dict_set (d : List (String × ℚ)) (k : String) (v : ℚ) :
    (dict_set d k v).lookup k = some v := by
  induction d with
  | nil => simp [dict_set]
  | cons p rest ih =>
    obtain ⟨k', v'⟩ := p
    by_cases h : k' = k
    · subst h
      simp [dict_set]
    · have hb : (k == k') = false := beq_eq_false_iff_ne.mpr fun hk => h hk.symm
      simp [dict_set, if_neg h, List.lookup, hb, ih]

/-- C2 counterexample: with the stored cursor for an address at 10, a
successful fetch completing at clock reading 5 rewrites the cursor to 5 —
the cursor decreases, the advance does not fail, and no invalid-cursor
handling exists. -/
theorem c2_counterexample :
    (get_recent_trades [("addr-a", 10)] "addr-a" 5 (some ([], []))).1
      = [("addr-a", 5)] ∧ (5 : ℚ) < 10 := by
  decide

/-- C2 amended: after a successful fetch the cursor of the queried address is
set to the fetch-completion clock reading unconditionally (even when that
reading is smaller than the stored cursor, so the cursor can move backward
under clock skew and no invalid-cursor error is ever produced); when the
fetch raises, the state is left unchanged and the caller receives the empty
list rather than a crash. -/
theorem c2_cursor_overwritten_unconditionally (lct : List (String × ℚ))
    (trader : String) (now : ℚ) (mk tk : List TradeEvent) :
    (get_recent_trades lct trader now (some (mk, tk))).1.lookup trader = some now ∧
    (get_recent_trades lct trader now (some (mk, tk))).2 = mk ++ tk ∧
    get_recent_trades lct trader now none = (lct, []) := by
  exact ⟨lookup_dict_set lct trader now, rfl, rfl⟩

/-- The `TraderInfo` dataclass of analytics.py (lines 10-21); every metric
field is optional with default `None`. -/
structure TraderInfo where
  address : String
  username : Option String := none
  pnl : Option ℚ := none
  win_rate : Option ℚ := none
  total_positions : Option Int := none
  active_positions : Option Int := none
  total_wins : Option ℚ := none
  total_losses : Option ℚ := none
  current_value : Option ℚ := none
deriving DecidableEq

/-- Lowercase zero-padded 40-digit hexadecimal rendering of a number, as
produced by the Python format `{n:040x}`. -/
def hex40 (n : Nat) : String :=
  let ds := Nat.toDigits 16 n
  String.mk (List.replicate (40 - ds.length) '0' ++ ds)

/-- One synthetic trader generated by `_get_placeholder_traders`
(lines 340-352), for `i` counted from 1. -/
def placeholder_trader (source : String) (i : Nat) : TraderInfo where
  address := "0x" ++ hex40 (i + (if source = "polymarketanalytics" then 100
    else if source = "polymarketwhales" then 200 else 300))
  username := if source = "subgraph" then none
    else some (source ++ "_trader" ++ toString i)
  pnl := some (100000 / (i : ℚ))
  win_rate := some (8/10 - (i : ℚ) * (2/100))
  total_positions := some (100 + (i : Int))
  active_positions := some (10 + (i : Int))
  total_wins := some (120000 / (i : ℚ))
  total_losses := some (20000 / (i : ℚ))
  current_value := some (50000 / (i : ℚ))

/-- The function `_get_placeholder_traders` (lines 326-354): traders for
`i in range(1, count + 1)`. -/
def get_placeholder_traders (source : String) (count : Nat) : List TraderInfo :=
  (List.range count).map fun j => placeholder_trader source (j + 1)

/-- The function `get_top_traders` (lines 49-93) with its I/O outcomes as
parameters: `cacheFileExists` says whether the cache file is present,
`cacheFresh` whether its age is below the expiry, `cached` holds its parsed
contents, and `fetched` the provider fetch result (the fetch helpers return
`[]` both on network failure and on an empty payload). The trailing cache
write does not affect the returned value and is omitted. -/
def get_top_traders (cacheFileExists cacheFresh : Bool) (cached : List TraderInfo)
    (fetched : List TraderInfo) (source : String) (count : Nat) : List TraderInfo :=
  if cacheFileExists && cacheFresh then cached.take count
  else
    let traders := if fetched.isEmpty && !cacheFileExists
      then get_placeholder_traders source count else fetched
    traders.take count

/-- Python truthiness of an optional float: `None` and `0.0` are falsy. -/
def truthy_q : Option ℚ → Bool
  | none => false
  | some q => !(q == 0)

/-- The recommendation filter of lines 494-498: `t.win_rate and t.win_rate >=
min_win_rate and t.pnl and t.pnl >= min_pnl`, under Python truthiness. -/
def passes_filter (minWinRate minPnl : ℚ) (t : TraderInfo) : Bool :=
  (truthy_q t.win_rate && decide (minWinRate ≤ t.win_rate.getD 0)) &&
  (truthy_q t.pnl && decide (minPnl ≤ t.pnl.getD 0))

/-- The sort key of line 501: `x.pnl if x.pnl else 0`. -/
def sort_key (t : TraderInfo) : ℚ :=
  if truthy_q t.pnl then t.pnl.getD 0 else 0

/-- First-seen-wins deduplication by address (lines 488-491): `seen` is the
key set of the `unique_traders` dict, and the output lists the retained
records in insertion order, as `unique_traders.values()` does. -/
def dedup_seen : List String → List TraderInfo → List TraderInfo
  | _, [] => []
  | seen, t :: rest =>
    if seen.contains t.address then dedup_seen seen rest
    else t :: dedup_seen (t.address :: seen) rest

/-- Deduplication starting from the empty `unique_traders` dict. -/
def dedup_traders (l : List TraderInfo) : List TraderInfo := dedup_seen [] l

/-- The function `get_recommended_traders` (lines 468-503) given the three
per-source `get_top_traders` results; `list.sort(key=..., reverse=True)` is
Python's stable descending sort, modelled by a stable merge sort under the
corresponding total order on keys. -/
def get_recommended_traders (pma pmw sg : List TraderInfo)
    (minWinRate minPnl : ℚ) : List TraderInfo :=
  let all_traders := pma ++ pmw ++ sg
  let unique := dedup_traders all_traders
  let recommended := unique.filter (passes_filter minWinRate minPnl)
  recommended.mergeSort fun a b => decide (sort_key b ≤ sort_key a)

/-- The cache and fetch outcome of one analytics source during one
`get_recommended_traders` call. -/
structure SourceFetch where
  cacheFileExists : Bool
  cacheFresh : Bool
  cached : List TraderInfo
  fetched : List TraderInfo
deriving DecidableEq

/-- The whole body of `get_recommended_traders` (lines 480-503): the three
`get_top_traders(source, count=20)` calls feed the aggregation. -/
def get_recommended_traders_run (s1 s2 s3 : SourceFetch)
    (minWinRate minPnl : ℚ) : List TraderInfo :=
  get_recommended_traders
    (get_top_traders s1.cacheFileExists s1.cacheFresh s1.cached s1.fetched
      "polymarketanalytics" 20)
    (get_top_traders s2.cacheFileExists s2.cacheFresh s2.cached s2.fetched
      "polymarketwhales" 20)
    (get_top_traders s3.cacheFileExists s3.cacheFresh s3.cached s3.fetched
      "subgraph" 20)
    minWinRate minPnl

theorem mem_recommended_iff (pma pmw sg : List TraderInfo) (minW minP : ℚ)
    (u : TraderInfo) :
    u ∈ get_recommended_traders pma pmw sg minW minP ↔
      u ∈ (dedup_traders (pma ++ pmw ++ sg)).filter (passes_filter minW minP) := by
  unfold get_recommended_traders
  exact (List.mergeSort_perm _ _).mem_iff

theorem mem_dedup_seen_found (seen : List String) (l : List TraderInfo)
    (u : TraderInfo) (hu : u ∈ dedup_seen seen l) :
    seen.contains u.address = false ∧
      l.find? (fun v => v.address == u.address) = some u := by
  induction l generalizing seen with
  | nil => simp [dedup_seen] at hu
  | cons t rest ih =>
    rw [dedup_seen] at hu
    by_cases h : seen.contains t.address
    · rw [if_pos h] at hu
      obtain ⟨h1, h2⟩ := ih seen hu
      have hne : (t.address == u.address) = false := by
        rw [beq_eq_false_iff_ne]
        intro he
        rw [← he, h] at h1
        simp at h1
      refine ⟨h1, ?_⟩
      rw [List.find?_cons, hne, h2]
    · rw [if_neg h] at hu
      rcases List.mem_cons.mp hu with rfl | hu'
      · refine ⟨by simpa using h, ?_⟩
        rw [List.find?_cons]
        simp
      · obtain ⟨h1, h2⟩ := ih (t.address :: seen) hu'
        rw [List.contains_cons] at h1
        have hts : (u.address == t.address) = false := by
          rcases Bool.or_eq_false_iff.mp h1 with ⟨ha, _⟩
          exact ha
        have hs : seen.contains u.address = false :=
          (Bool.or_eq_false_iff.mp h1).2
        refine ⟨hs, ?_⟩
        have hne : (t.address == u.address) = false := by
          rw [beq_eq_false_iff_ne]
          exact fun he => absurd (beq_iff_eq.mpr he.symm) (by rw [hts]; simp)
        rw [List.find?_cons, hne, h2]

theorem dedup_seen_pairwise (seen : List String) (l : List TraderInfo) :
    List.Pairwise (fun a b : TraderInfo => a.address ≠ b.address)
      (dedup_seen seen l) := by
  induction l generalizing seen with
  | nil => simp [dedup_seen]
  | cons t rest ih =>
    rw [dedup_seen]
    by_cases h : seen.contains t.address
    · rw [if_pos h]
      exact ih seen
    · rw [if_neg h]
      refine List.Pairwise.cons ?_ (ih (t.address :: seen))
      intro u hu
      have h1 := (mem_dedup_seen_found _ _ u hu).1
      rw [List.contains_cons] at h1
      have := (Bool.or_eq_false_iff.mp h1).1
      rw [beq_eq_false_iff_ne] at this
      exact fun he => this he.symm

theorem dedup_seen_covers (seen : List String) (l : List TraderInfo)
    (t : TraderInfo) (ht : t ∈ l) :
    seen.contains t.address = true ∨
      ∃ u ∈ dedup_seen seen l, u.address = t.address := by
  induction l generalizing seen with
  | nil => simp at ht
  | cons t' rest ih =>
    rw [dedup_seen]
    by_cases h : seen.contains t'.address
    · rw [if_pos h]
      rcases List.mem_cons.mp ht with rfl | ht'
      · exact Or.inl h
      · exact ih seen ht'
    · rw [if_neg h]
      rcases List.mem_cons.mp ht with rfl | ht'
      · exact Or.inr ⟨t, List.mem_cons_self _ _, rfl⟩
      · rcases ih (t'.address :: seen) ht' with hc | ⟨u, hu, he⟩
        · rw [List.contains_cons] at hc
          rcases Bool.or_eq_true_iff.mp hc with hb | hs
          · exact Or.inr ⟨t', List.mem_cons_self _ _, (beq_iff_eq.mp hb).symm⟩
          · exact Or.inl hs
        · exact Or.inr ⟨u, List.mem_cons_of_mem _ hu, he⟩

theorem mem_of_mem_dedup_seen (seen : List String) (l : List TraderInfo)
    (u : TraderInfo) (hu : u ∈ dedup_seen seen l) : u ∈ l :=
  List.mem_of_find?_eq_some (mem_dedup_seen_found seen l u hu).2

theorem mem_dedup_head (t : TraderInfo) (rest : List TraderInfo) :
    t ∈ dedup_traders (t :: rest) := by
  rw [dedup_traders, dedup_seen]
  simp

/-- C7: the recommended list never repeats an address; every record it
retains is the first record bearing its address in the concatenation of the
source results in query order (earliest-queried source wins); and after
deduplication every input address appears exactly once. -/
theorem c7_dedup_first_seen_wins :
    (∀ (pma pmw sg : List TraderInfo) (minW minP : ℚ),
      List.Pairwise (fun a b : TraderInfo => a.address ≠ b.address)
        (get_recommended_traders pma pmw sg minW minP)) ∧
    (∀ (pma pmw sg : List TraderInfo) (minW minP : ℚ) (u : TraderInfo),
      u ∈ get_recommended_traders pma pmw sg minW minP →
      (pma ++ pmw ++ sg).find? (fun v => v.address == u.address) = some u) ∧
    (∀ (l : List TraderInfo) (t : TraderInfo), t ∈ l →
      ((dedup_traders l).map (fun v => v.address)).count t.address = 1) := by
  have hsym : Symmetric (fun a b : TraderInfo => a.address ≠ b.address) :=
    fun _ _ h => h.symm
  refine ⟨fun pma pmw sg minW minP => ?_, fun pma pmw sg minW minP u hu => ?_,
    fun l t ht => ?_⟩
  · unfold get_recommended_traders
    have hperm := List.mergeSort_perm
      ((dedup_traders (pma ++ pmw ++ sg)).filter (passes_filter minW minP))
      (fun a b => decide (sort_key b ≤ sort_key a))
    exact (hperm.pairwise_iff fun h => Ne.symm h).mpr
      (List.Pairwise.sublist (List.filter_sublist _) (dedup_seen_pairwise [] _))
  · rw [mem_recommended_iff] at hu
    have hd := (List.mem_filter.mp hu).1
    rw [dedup_traders] at hd
    exact (mem_dedup_seen_found [] _ u hd).2
  · rcases dedup_seen_covers [] l t ht with hc | ⟨u, hu, he⟩
    · simp at hc
    · have hnd : ((dedup_traders l).map (fun v => v.address)).Pairwise (· ≠ ·) := by
        rw [List.pairwise_map]
        exact dedup_seen_pairwise [] l
      have hmem : t.address ∈ (dedup_traders l).map (fun v => v.address) :=
        List.mem_map.mpr ⟨u, hu, he⟩
      have h1 : 0 < ((dedup_traders l).map (fun v => v.address)).count t.address :=
        List.count_pos_iff.mpr hmem
      have h2 := List.nodup_iff_count_le_one.mp hnd t.address
      omega

/-- A first-source record at address 0xdup. -/
def dupTraderA : TraderInfo where
  address := "0xdup"
  pnl := some 100
  win_rate := some 1

/-- A second-source record at the same address 0xdup. -/
def dupTraderB : TraderInfo where
  address := "0xdup"
  pnl := some 50
  win_rate := some 1

/-- Witness for C7: with two sources overlapping at address 0xdup, the
retained record is the first source's, and after deduplication the address
appears exactly once. -/
theorem c7_witness :
    ([dupTraderA] ++ [dupTraderB] ++ ([] : List TraderInfo)).find?
        (fun v => v.address == dupTraderA.address) = some dupTraderA ∧
    ((dedup_traders [dupTraderA, dupTraderB]).map (fun v => v.address)).count
        dupTraderB.address = 1 := by
  constructor
  · refine c7_dedup_first_seen_wins.2.1 [dupTraderA] [dupTraderB] [] 0 0 dupTraderA ?_
    exact (mem_recommended_iff _ _ _ _ _ _).mpr (by decide)
  · exact c7_dedup_first_seen_wins.2.2 [dupTraderA, dupTraderB] dupTraderB (by decide)

/-- C10: a trader whose win rate is missing or exactly zero, or whose PnL is
missing or exactly zero, is never in the recommended list, for every choice
of thresholds (including zero or negative ones) and of source results. -/
theorem c10_zero_or_missing_metrics_excluded (pma pmw sg : List TraderInfo)
    (minW minP : ℚ) (t : TraderInfo)
    (h : t.win_rate = none ∨ t.win_rate = some 0 ∨ t.pnl = none ∨ t.pnl = some 0) :
    t ∉ get_recommended_traders pma pmw sg minW minP := by
  rw [mem_recommended_iff]
  intro hmem
  have hp := (List.mem_filter.mp hmem).2
  rcases h with h | h | h | h <;> simp [passes_filter, truthy_q, h] at hp

/-- A trader with a positive PnL but a win rate of exactly zero. -/
def zeroWinTrader : TraderInfo where
  address := "0xzero"
  pnl := some 100
  win_rate := some 0

/-- Witness for C10: the zero-win-rate trader is not recommended even under
negative thresholds. -/
theorem c10_witness :
    zeroWinTrader ∉ get_recommended_traders [zeroWinTrader] [] [] (-1) (-1) :=
  c10_zero_or_missing_metrics_excluded [zeroWinTrader] [] [] (-1) (-1) zeroWinTrader
    (Or.inr (Or.inl rfl))

/-- A source whose cache file is absent and whose fetch failed. -/
def failedSource : SourceFetch where
  cacheFileExists := false
  cacheFresh := false
  cached := []
  fetched := []

/-- A source whose fetch failed but whose (expired) cache file exists. -/
def staleSource : SourceFetch where
  cacheFileExists := true
  cacheFresh := false
  cached := []
  fetched := []

theorem placeholder_head (source : String) :
    get_placeholder_traders source 20
      = placeholder_trader source 1
        :: ((List.range 19).map Nat.succ).map (fun j => placeholder_trader source (j + 1)) := by
  have h20 : (20 : ℕ) = 19 + 1 := rfl
  rw [get_placeholder_traders, h20, List.range_succ_eq_map, List.map_cons]

theorem top_traders_all_failed (source : String) :
    get_top_traders false false [] [] source 20 = get_placeholder_traders source 20 := by
  have hstep : get_top_traders false false [] [] source 20
      = (get_placeholder_traders source 20).take 20 := rfl
  have hlen : (get_placeholder_traders source 20).length = 20 := by
    simp [get_placeholder_traders]
  rw [hstep]
  exact List.take_of_length_le (le_of_eq hlen)

theorem pma_placeholder_passes :
    passes_filter (6/10) 10000 (placeholder_trader "polymarketanalytics" 1) = true := by
  have h1 : (placeholder_trader "polymarketanalytics" 1).win_rate = some (39/50) := by
    rw [placeholder_trader]
    norm_num
  have h2 : (placeholder_trader "polymarketanalytics" 1).pnl = some 100000 := by
    rw [placeholder_trader]
    norm_num
  rw [passes_filter, h1, h2]
  simp only [truthy_q, Option.getD_some]
  norm_num

/-- C3 counterexample: when every source fails and no cache file exists, the
aggregation does not return the empty list — `get_top_traders` substitutes
placeholder traders, the first of which passes the default thresholds
(win rate 0.6, PnL 10000), so callers receive synthetic recommendations. -/
theorem c3_counterexample :
    get_recommended_traders_run failedSource failedSource failedSource
      (6/10) 10000 ≠ [] := by
  intro hnil
  have hmem : placeholder_trader "polymarketanalytics" 1
      ∈ get_recommended_traders_run failedSource failedSource failedSource
          (6/10) 10000 := by
    unfold get_recommended_traders_run failedSource
    rw [mem_recommended_iff]
    refine List.mem_filter.mpr ⟨?_, pma_placeholder_passes⟩
    rw [top_traders_all_failed, placeholder_head, List.cons_append, List.cons_append]
    exact mem_dedup_head _ _
  rw [hnil] at hmem
  exact absurd hmem (List.not_mem_nil _)

/-- C3 amended: the aggregation is a total function (it never raises) and
returns the empty list both when every source fails while its cache file
exists (even expired, so no placeholder substitution happens) and when no
aggregated record passes the win-rate/PnL filter; but when a source fails
with no cache file at all, placeholder records are substituted and the
result can be nonempty. -/
theorem c3_empty_when_caches_exist_or_nothing_passes :
    (∀ (s1 s2 s3 : SourceFetch) (minW minP : ℚ),
      s1.cacheFileExists = true → s2.cacheFileExists = true →
      s3.cacheFileExists = true →
      s1.cacheFresh = false → s2.cacheFresh = false → s3.cacheFresh = false →
      s1.fetched = [] → s2.fetched = [] → s3.fetched = [] →
      get_recommended_traders_run s1 s2 s3 minW minP = []) ∧
    (∀ (pma pmw sg : List TraderInfo) (minW minP : ℚ),
      (∀ t, t ∈ pma ++ pmw ++ sg → passes_filter minW minP t = false) →
      get_recommended_traders pma pmw sg minW minP = []) := by
  have hfilter : ∀ (pma pmw sg : List TraderInfo) (minW minP : ℚ),
      (∀ t, t ∈ pma ++ pmw ++ sg → passes_filter minW minP t = false) →
      get_recommended_traders pma pmw sg minW minP = [] := by
    intro pma pmw sg minW minP hall
    have hfil : (dedup_traders (pma ++ pmw ++ sg)).filter
        (passes_filter minW minP) = [] := by
      rw [List.filter_eq_nil_iff]
      intro a ha
      rw [dedup_traders] at ha
      have := hall a (mem_of_mem_dedup_seen [] _ a ha)
      simp [this]
    show List.mergeSort
      ((dedup_traders (pma ++ pmw ++ sg)).filter (passes_filter minW minP))
      (fun a b => decide (sort_key b ≤ sort_key a)) = []
    rw [hfil]
    exact List.Perm.eq_nil (List.mergeSort_perm [] _)
  refine ⟨fun s1 s2 s3 minW minP h1 h2 h3 h4 h5 h6 h7 h8 h9 => ?_, hfilter⟩
  have htop : ∀ (c : List TraderInfo) (source : String),
      get_top_traders true false c [] source 20 = [] := by
    intro c source
    rw [get_top_traders]
    simp
  unfold get_recommended_traders_run
  rw [h1, h2, h3, h4, h5, h6, h7, h8, h9, htop, htop, htop]
  exact hfilter [] [] [] minW minP (by intro t ht; simp at ht)

/-- Witness for C3: with all three fetches failed but stale cache files
present the result is empty, and with a single aggregated record failing the
filter the result is empty. -/
theorem c3_witness :
    get_recommended_traders_run staleSource staleSource staleSource (6/10) 10000
      = [] ∧
    get_recommended_traders [zeroWinTrader] [] [] 0 0 = [] := by
  constructor
  · exact c3_empty_when_caches_exist_or_nothing_passes.1 staleSource staleSource
      staleSource (6/10) 10000 rfl rfl rfl rfl rfl rfl rfl rfl rfl
  · refine c3_empty_when_caches_exist_or_nothing_passes.2 [zeroWinTrader] [] [] 0 0 ?_
    intro t ht
    simp only [List.append_nil, List.mem_singleton] at ht
    subst ht
    decide

end CopyTrader
